import Mathlib

/-!
Shallow embedding of the force-directed graph visualization core of the
GST-Reconciliation-Knowledge-Graph frontend, together with proofs about it.

Embedded source files:
  - src/frontend/src/lib/api.ts          (the data adapter `tocy`)
  - src/frontend/src/pages/GraphPage.tsx (the layout engine `layoutNodes`,
    the traversal controller `handleVisualize` / `loadOverview`, and the
    zoom controls)

Modelling conventions: JavaScript numbers are modelled as real numbers;
JavaScript objects used as string-keyed dictionaries are modelled as
functions `String → Option _`; in-place mutation of a point object is
modelled by re-reading the current map entry before each compound
assignment, which reproduces the aliasing behaviour of object references;
a JavaScript runtime TypeError is modelled by `Except.error`.
-/

/- ---------- JS string primitives used by the page ---------- -/

/-- Model of JavaScript `String.prototype.toUpperCase` (character-wise). -/
def jsToUpper (s : String) : String := String.mk (s.data.map Char.toUpper)

/-- Model of JavaScript `String.prototype.trim`: drop whitespace at both ends. -/
def jsTrim (s : String) : String :=
  String.mk (((s.data.dropWhile Char.isWhitespace).reverse.dropWhile Char.isWhitespace).reverse)

/-- Model of the JS `||` fallback on an optional string field: `null`/`undefined`
and the empty string are falsy and select the fallback. -/
def strFalsyOr (a : Option String) (b : String) : String :=
  match a with
  | some s => if s = "" then b else s
  | none => b

/- ---------- Data model (api.ts): Cytoscape-style graph ---------- -/

/-- The `data` record of a Cytoscape-style node produced by `tocy`:
`{id, type, label, risk_level, ...props}` (the spread properties are kept
in `extra`). -/
structure CyNodeData where
  id : String
  label : String
  type : String
  risk_level : Option String
  extra : List (String × String)
deriving DecidableEq

/-- A Cytoscape-style node `{data: {...}}`. -/
structure CyNode where
  data : CyNodeData
deriving DecidableEq

/-- The `data` record of a Cytoscape-style edge:
`{id, source, target, rel, risk_level}`. -/
structure CyEdgeData where
  id : String
  source : String
  target : String
  rel : String
  risk_level : Option String
deriving DecidableEq

/-- A Cytoscape-style edge `{data: {...}}`. -/
structure CyEdge where
  data : CyEdgeData
deriving DecidableEq

/-- The normalized graph `{nodes, edges, node_count, edge_count}`. -/
structure CyGraph where
  nodes : List CyNode
  edges : List CyEdge
  node_count : Int
  edge_count : Int
deriving DecidableEq

/- ---------- Raw backend payload and the data adapter `tocy` ---------- -/

/-- A raw backend node `{id, label, properties?, risk_level?}`; `properties`
is an open string-keyed object, modelled as an ordered key-value list. -/
structure RawNode where
  id : String
  label : String
  properties : Option (List (String × String))
  risk_level : Option String
deriving DecidableEq

/-- A raw backend edge `{id, source, target, label, risk_level?}`. -/
structure RawEdge where
  id : String
  source : String
  target : String
  label : String
  risk_level : Option String
deriving DecidableEq

/-- A raw backend payload. The `nodes`/`edges` arrays are `Option` so that a
malformed payload missing an array is representable. -/
structure RawGraph where
  nodes : Option (List RawNode)
  edges : Option (List RawEdge)
  node_count : Int
  edge_count : Int
deriving DecidableEq

/-- Model of the optional-chained property access `n.properties?.key`. -/
def lookupProp (props : Option (List (String × String))) (key : String) : Option String :=
  match props with
  | some ps => ps.lookup key
  | none => none

/-- Mapping of one raw node in `tocy`: `type` takes the raw `label`, the display
`label` is `properties?.legal_name ?? properties?.invoice_no ?? id`, and the
properties are spread into the data record. -/
def rawNodeToCy (n : RawNode) : CyNode :=
  { data :=
    { id := n.id
      type := n.label
      label := (lookupProp n.properties "legal_name").getD
        ((lookupProp n.properties "invoice_no").getD n.id)
      risk_level := n.risk_level
      extra := n.properties.getD [] } }

/-- Mapping of one raw edge in `tocy`: `rel` takes the raw `label`. -/
def rawEdgeToCy (e : RawEdge) : CyEdge :=
  { data :=
    { id := e.id
      source := e.source
      target := e.target
      rel := e.label
      risk_level := e.risk_level } }

/-- The data adapter `tocy` (api.ts). It calls `.map` on `raw.nodes` and
`raw.edges` without any guard, so a payload whose `nodes` or `edges` array is
missing raises a TypeError (modelled as `Except.error`); `node_count` and
`edge_count` are copied verbatim from the raw payload. -/
def tocy (raw : RawGraph) : Except String CyGraph :=
  match raw.nodes, raw.edges with
  | some ns, some es =>
      Except.ok
        { nodes := ns.map rawNodeToCy
          edges := es.map rawEdgeToCy
          node_count := raw.node_count
          edge_count := raw.edge_count }
  | _, _ => Except.error "TypeError"

/- ---------- Layout engine (GraphPage.tsx, layoutNodes) ---------- -/

/-- A 2-D position `{x, y}`. -/
structure Pt where
  x : ℝ
  y : ℝ

/-- The position map `pos : Record<string, {x, y}>`. -/
abbrev Pos := String → Option Pt

/-- Write one entry of the position map. -/
def setPos (p : Pos) (k : String) (v : Pt) : Pos := fun s => if s = k then some v else p s

/-- Model of the compound assignments `o.x += dx; o.y += dy` on the point
object stored at key `k`: the current entry is re-read, so aliased updates in
the same pass compose the way JS object references do. -/
noncomputable def nudge (p : Pos) (k : String) (dx dy : ℝ) : Pos :=
  match p k with
  | some q => setPos p k ⟨q.x + dx, q.y + dy⟩
  | none => p

/-- Euclidean distance between two points (no floor). -/
noncomputable def ptDist (a b : Pt) : ℝ :=
  Real.sqrt ((a.x - b.x) * (a.x - b.x) + (a.y - b.y) * (a.y - b.y))

/-- The distance actually used by the repulsion pass:
`Math.sqrt(dx*dx + dy*dy) || 1`. The square root is nonnegative, so the JS
`|| 1` fallback fires exactly when the square root is `0`. -/
noncomputable def distUsed (a b : Pt) : ℝ :=
  let s := Real.sqrt ((a.x - b.x) * (a.x - b.x) + (a.y - b.y) * (a.y - b.y))
  if s = 0 then 1 else s

/-- Effective grouping type of a node: `n.data.type || 'other'` (the empty
string is falsy in JS). -/
def effType (n : CyNode) : String := if n.data.type = "" then "other" else n.data.type

/-- The keys of the `groups` object in first-insertion order, as produced by
`Object.keys` on the grouping object (type names are non-index-like keys, so
`Object.keys` preserves insertion order). -/
def typesOf (nodes : List CyNode) : List String :=
  nodes.foldl (fun ts n => if effType n ∈ ts then ts else ts ++ [effType n]) []

/-- The group of nodes of effective type `t`, in input order. -/
def groupOf (nodes : List CyNode) (t : String) : List CyNode :=
  nodes.filter (fun n => effType n == t)

/-- The guarded denominator `Math.max(len, 1)` used for both angle steps. -/
def guardMax1 (len : ℕ) : ℝ := max (len : ℝ) 1

/-- The angle `(i / Math.max(len, 1)) * 2 * Math.PI`. -/
noncomputable def angleOf (i len : ℕ) : ℝ := ((i : ℝ) / guardMax1 len) * (2 * Real.pi)

/-- The inner seeding loop `nodesInGroup.forEach((n, i) => ...)`: place member
`i` of a group of size `len` on the circle of radius `r` around the group
anchor `(gx, gy)`. -/
noncomputable def seedGroup (gx gy r : ℝ) (len : ℕ) : List CyNode → ℕ → Pos → Pos
  | [], _, pos => pos
  | n :: rest, i, pos =>
      seedGroup gx gy r len rest (i + 1)
        (setPos pos n.data.id
          ⟨gx + r * Real.cos (angleOf i len), gy + r * Real.sin (angleOf i len)⟩)

/-- One step of the outer seeding loop `for (const type of types)`. -/
noncomputable def seedType (nodes : List CyNode) (w h : ℝ) (types : List String)
    (pos : Pos) (t : String) : Pos :=
  let g := groupOf nodes t
  let gAngle := angleOf (types.indexOf t) types.length
  let gx := w / 2 + min w h * 0.3 * Real.cos gAngle
  let gy := h / 2 + min w h * 0.3 * Real.sin gAngle
  seedGroup gx gy (min w h * 0.12) g.length g 0 pos

/-- The type-clustered seeding phase of `layoutNodes`. -/
noncomputable def seedPositions (nodes : List CyNode) (w h : ℝ) : Pos :=
  let types := typesOf nodes
  types.foldl (seedType nodes w h types) (fun _ => none)

/-- `nodes[i].data.id` (the out-of-range fallback is never reached for the
index pairs generated below). -/
def idAt (nodes : List CyNode) (i : ℕ) : String :=
  match nodes.get? i with
  | some n => n.data.id
  | none => ""

/-- The index pairs `(i, j)` with `i < j < n`, in the nested-loop order of the
repulsion pass. -/
def pairIdx (n : ℕ) : List (ℕ × ℕ) :=
  (List.range n).flatMap fun i =>
    ((List.range n).filter (fun j => decide (i < j))).map (fun j => (i, j))

/-- One repulsion update for the pair `(i, j)`: Coulomb-like force
`2200 / dist²` applied along the normalized direction, pushing `a` and `b`
apart; both compound assignments reuse the displacement computed from the
positions read at the start of the pair step. -/
noncomputable def repulsePair (nodes : List CyNode) (pos : Pos) (ij : ℕ × ℕ) : Pos :=
  match pos (idAt nodes ij.1), pos (idAt nodes ij.2) with
  | some a, some b =>
      let dx := a.x - b.x
      let dy := a.y - b.y
      let dist := distUsed a b
      let force := 2200 / (dist * dist)
      nudge (nudge pos (idAt nodes ij.1) (force * dx / dist) (force * dy / dist))
        (idAt nodes ij.2) (-(force * dx / dist)) (-(force * dy / dist))
  | _, _ => pos

/-- One attraction update along an edge: `if (!a || !b) continue`, else pull
the endpoints together by `0.012` of their separation. -/
noncomputable def attractEdge (pos : Pos) (e : CyEdge) : Pos :=
  match pos e.data.source, pos e.data.target with
  | some a, some b =>
      let dx := b.x - a.x
      let dy := b.y - a.y
      nudge (nudge pos e.data.source (0.012 * dx) (0.012 * dy))
        e.data.target (-(0.012 * dx)) (-(0.012 * dy))
  | _, _ => pos

/-- One clamping update: `p.x = Math.max(30, Math.min(w - 30, p.x))` and
likewise for `y`. -/
noncomputable def clampNode (w h : ℝ) (pos : Pos) (n : CyNode) : Pos :=
  match pos n.data.id with
  | some p => setPos pos n.data.id ⟨max 30 (min (w - 30) p.x), max 30 (min (h - 30) p.y)⟩
  | none => pos

/-- One iteration of the force loop: repulsion over all index pairs, then
attraction over all edges, then clamping over all nodes. -/
noncomputable def iterStep (nodes : List CyNode) (edges : List CyEdge) (w h : ℝ)
    (pos : Pos) : Pos :=
  nodes.foldl (clampNode w h)
    (edges.foldl attractEdge ((pairIdx nodes.length).foldl (repulsePair nodes) pos))

/-- The layout engine `layoutNodes(nodes, edges, w, h)`: type-clustered
seeding followed by 60 force iterations. -/
noncomputable def layoutNodes (nodes : List CyNode) (edges : List CyEdge) (w h : ℝ) : Pos :=
  (iterStep nodes edges w h)^[60] (seedPositions nodes w h)

/-- The ids of the input nodes. -/
def nodeIds (nodes : List CyNode) : List String := nodes.map (fun n => n.data.id)

/-- The renderer draws the connection for an edge exactly when both endpoint
positions resolve (`if (!a || !b) return null`). -/
def edgeRendered (pos : Pos) (e : CyEdge) : Prop :=
  pos e.data.source ≠ none ∧ pos e.data.target ≠ none

/- ---------- Traversal controller (GraphPage.tsx) ---------- -/

/-- Exploration mode. -/
inductive Mode where
  | overview
  | subgraph
deriving DecidableEq

/-- A transport failure as seen in the catch block:
`err?.response?.data?.detail` and `err?.message`. -/
structure ApiErr where
  detail : Option String
  message : Option String
deriving DecidableEq

/-- `err?.response?.data?.detail || err?.message || 'Failed to load graph'`. -/
def errMsg (e : ApiErr) : String :=
  strFalsyOr e.detail (strFalsyOr e.message "Failed to load graph")

/-- The page state owned by `GraphPage` that the traversal controller
touches. -/
structure PageState where
  gstin : String
  depth : ℕ
  loading : Bool
  error : Option String
  graph : Option CyGraph
  mode : Mode
deriving DecidableEq

/-- The no-results message: `No results found for "${g}" at depth ${depth}`. -/
def noResultsMsg (g : String) (d : ℕ) : String :=
  "No results found for \"" ++ g ++ "\" at depth " ++ toString d

/-- `handleVisualize(targetGstin?)`: normalize the key, reject an empty key,
then on a response branch on `node_count > 0` (success: store graph, enter
subgraph mode; empty: no-results error and `setGraph(null)`; failure: error
banner and `setGraph(null)`). The awaited response is passed as `resp`. -/
def handleVisualize (st : PageState) (tgt : Option String)
    (resp : Except ApiErr CyGraph) : PageState :=
  let g := jsToUpper (jsTrim (tgt.getD st.gstin))
  if g = "" then { st with error := some "Please enter a GSTIN to search" }
  else
    let st1 := { st with gstin := g, error := none, loading := true }
    match resp with
    | Except.ok d =>
        if 0 < d.node_count then
          { st1 with graph := some d, mode := Mode.subgraph, error := none, loading := false }
        else
          { st1 with error := some (noResultsMsg g st.depth), graph := none, loading := false }
    | Except.error e =>
        { st1 with error := some ("Error: " ++ errMsg e), graph := none, loading := false }

/-- The events that mutate the traversal-relevant page state: completion of
`loadOverview`, a `handleVisualize` call (search button, Enter key, or click
on a Taxpayer node), an edit of the search input, a depth-toggle click, and
completion of the depth-change auto-refetch effect. -/
inductive Ev where
  | overviewLoaded (resp : Except ApiErr CyGraph)
  | visualize (tgt : Option String) (resp : Except ApiErr CyGraph)
  | inputChange (s : String)
  | depthSelect (d : ℕ)
  | depthRefetch (resp : Except ApiErr CyGraph)

/-- The state transition for each event, translated from GraphPage.tsx:
`loadOverview` sets the graph and mode on success but only clears the graph on
failure (it never touches `gstin`); the input `onChange` uppercases the text
and clears the error; the depth-change effect refetches only in subgraph mode
with a non-empty key. -/
def stepEv (st : PageState) : Ev → PageState
  | Ev.overviewLoaded (Except.ok g) =>
      { st with graph := some g, mode := Mode.overview, loading := false }
  | Ev.overviewLoaded (Except.error _) => { st with graph := none, loading := false }
  | Ev.visualize tgt resp => handleVisualize st tgt resp
  | Ev.inputChange s => { st with gstin := jsToUpper s, error := none }
  | Ev.depthSelect d => { st with depth := d }
  | Ev.depthRefetch resp =>
      if st.mode = Mode.subgraph ∧ jsTrim st.gstin ≠ "" then
        match resp with
        | Except.ok g => { st with graph := some g, loading := false }
        | Except.error _ => { st with graph := none, loading := false }
      else st

/-- The initial page state on mount. -/
def initState : PageState :=
  { gstin := "", depth := 1, loading := false, error := none, graph := none,
    mode := Mode.overview }

/-- The states of the page reachable from the initial state. -/
inductive ReachableState : PageState → Prop where
  | init : ReachableState initState
  | next : ∀ s e, ReachableState s → ReachableState (stepEv s e)

/- ---------- Interaction controller: zoom (GraphPage.tsx) ---------- -/

/-- The zoom-in button: `setZoom(z => Math.min(z + 0.2, 4))`. -/
noncomputable def zoomIn (z : ℝ) : ℝ := min (z + 0.2) 4

/-- The zoom-out button: `setZoom(z => Math.max(z - 0.2, 0.2))`. -/
noncomputable def zoomOut (z : ℝ) : ℝ := max (z - 0.2) 0.2

/-- The reset button sets `zoom` to 1. -/
def resetView : ℝ := 1

/-- Modelled from the claim's words (not from the source), for comparison:
zoom-in "multiplies the zoom by a fixed step of 0.2, and the result is
clamped to [0.2, 4]". -/
noncomputable def zoomInClaimed (z : ℝ) : ℝ := max 0.2 (min (z * 0.2) 4)

/-- A zoom control operation. -/
inductive ZoomOp where
  | zin
  | zout
  | reset

/-- Apply one zoom operation. -/
noncomputable def applyZoom (z : ℝ) : ZoomOp → ℝ
  | ZoomOp.zin => zoomIn z
  | ZoomOp.zout => zoomOut z
  | ZoomOp.reset => resetView

/-- Apply a sequence of zoom operations. -/
noncomputable def runZoom (z : ℝ) (ops : List ZoomOp) : ℝ := ops.foldl applyZoom z

/- ---------- Generic fold and iterate helpers ---------- -/

/-- A property preserved by every step of a left fold is preserved by the
fold. -/
theorem foldl_preserve {α β : Type _} (P : α → Prop) (f : α → β → α)
    (hf : ∀ a b, P a → P (f a b)) :
    ∀ (l : List β) (a : α), P a → P (l.foldl f a) := by
  intro l
  induction l with
  | nil => intro a ha; exact ha
  | cons b l ih => intro a ha; exact ih _ (hf _ _ ha)

/-- A property preserved by a step is established by a fold that contains an
element whose step always establishes it. -/
theorem foldl_establish {α β : Type _} (P : α → Prop) (f : α → β → α)
    (hpres : ∀ a c, P a → P (f a c)) :
    ∀ (l : List β) (b : β), b ∈ l → (∀ a, P (f a b)) → ∀ a, P (l.foldl f a) := by
  intro l
  induction l with
  | nil => intro b hb; exact absurd hb (List.not_mem_nil b)
  | cons c l ih =>
      intro b hb hstep a
      rcases List.mem_cons.mp hb with rfl | hb'
      · exact foldl_preserve P f hpres l _ (hstep a)
      · exact ih b hb' hstep _

/-- A property preserved by `f` is preserved by every iterate of `f`. -/
theorem iterate_preserve {α : Type _} (P : α → Prop) (f : α → α)
    (hf : ∀ a, P a → P (f a)) : ∀ (n : ℕ) (a : α), P a → P (f^[n] a) := by
  intro n
  induction n with
  | zero => intro a ha; simpa using ha
  | succ n ih =>
      intro a ha
      rw [Function.iterate_succ_apply]
      exact ih _ (hf _ ha)

/-- Two functions that agree on a class of states closed under the first one
have equal iterates on that class. -/
theorem iterate_congr {α : Type _} (P : α → Prop) (f g : α → α)
    (hfg : ∀ a, P a → f a = g a) (hP : ∀ a, P a → P (f a)) :
    ∀ (n : ℕ) (a : α), P a → f^[n] a = g^[n] a := by
  intro n
  induction n with
  | zero => intro a _; simp
  | succ n ih =>
      intro a ha
      rw [Function.iterate_succ_apply, Function.iterate_succ_apply, ← hfg a ha,
        ih (f a) (hP a ha)]

/- ---------- Support invariants of the position map ---------- -/

/-- Every key in the support of `pos` lies in `ids`. -/
def suppIn (pos : Pos) (ids : List String) : Prop := ∀ k, pos k ≠ none → k ∈ ids

theorem setPos_apply (p : Pos) (k : String) (v : Pt) (s : String) :
    setPos p k v s = if s = k then some v else p s := rfl

theorem suppIn_setPos {pos : Pos} {ids : List String} {k : String} {v : Pt}
    (h : suppIn pos ids) (hk : k ∈ ids) : suppIn (setPos pos k v) ids := by
  intro s hs
  by_cases hsk : s = k
  · exact hsk ▸ hk
  · rw [setPos_apply, if_neg hsk] at hs
    exact h s hs

theorem setPos_ne_none {pos : Pos} {s : String} (k : String) (v : Pt)
    (h : pos s ≠ none) : setPos pos k v s ≠ none := by
  by_cases hsk : s = k <;> simp [setPos_apply, hsk, h]

theorem suppIn_nudge {pos : Pos} {ids : List String} (k : String) (dx dy : ℝ)
    (h : suppIn pos ids) : suppIn (nudge pos k dx dy) ids := by
  unfold nudge
  cases hk : pos k with
  | none => exact h
  | some q => exact suppIn_setPos h (h k (by simp [hk]))

theorem nudge_ne_none {pos : Pos} {s : String} (k : String) (dx dy : ℝ)
    (h : pos s ≠ none) : nudge pos k dx dy s ≠ none := by
  unfold nudge
  cases hk : pos k with
  | none => exact h
  | some q => exact setPos_ne_none _ _ h

theorem suppIn_repulsePair {pos : Pos} {ids : List String} (nodes : List CyNode)
    (ij : ℕ × ℕ) (h : suppIn pos ids) : suppIn (repulsePair nodes pos ij) ids := by
  unfold repulsePair
  cases hA : pos (idAt nodes ij.1) with
  | none => exact h
  | some a =>
      cases hB : pos (idAt nodes ij.2) with
      | none => exact h
      | some b => exact suppIn_nudge _ _ _ (suppIn_nudge _ _ _ h)

theorem repulsePair_ne_none {pos : Pos} {s : String} (nodes : List CyNode)
    (ij : ℕ × ℕ) (h : pos s ≠ none) : repulsePair nodes pos ij s ≠ none := by
  unfold repulsePair
  cases hA : pos (idAt nodes ij.1) with
  | none => exact h
  | some a =>
      cases hB : pos (idAt nodes ij.2) with
      | none => exact h
      | some b => exact nudge_ne_none _ _ _ (nudge_ne_none _ _ _ h)

theorem suppIn_attractEdge {pos : Pos} {ids : List String} (e : CyEdge)
    (h : suppIn pos ids) : suppIn (attractEdge pos e) ids := by
  unfold attractEdge
  cases hA : pos e.data.source with
  | none => exact h
  | some a =>
      cases hB : pos e.data.target with
      | none => exact h
      | some b => exact suppIn_nudge _ _ _ (suppIn_nudge _ _ _ h)

theorem attractEdge_ne_none {pos : Pos} {s : String} (e : CyEdge)
    (h : pos s ≠ none) : attractEdge pos e s ≠ none := by
  unfold attractEdge
  cases hA : pos e.data.source with
  | none => exact h
  | some a =>
      cases hB : pos e.data.target with
      | none => exact h
      | some b => exact nudge_ne_none _ _ _ (nudge_ne_none _ _ _ h)

theorem suppIn_clampNode {pos : Pos} {ids : List String} (w h' : ℝ) (n : CyNode)
    (h : suppIn pos ids) : suppIn (clampNode w h' pos n) ids := by
  unfold clampNode
  cases hk : pos n.data.id with
  | none => exact h
  | some p => exact suppIn_setPos h (h _ (by simp [hk]))

theorem clampNode_ne_none {pos : Pos} {s : String} (w h' : ℝ) (n : CyNode)
    (h : pos s ≠ none) : clampNode w h' pos n s ≠ none := by
  unfold clampNode
  cases hk : pos n.data.id with
  | none => exact h
  | some p => exact setPos_ne_none _ _ h

/- ---------- Seeding-phase lemmas ---------- -/

theorem suppIn_seedGroup (gx gy r : ℝ) (len : ℕ) :
    ∀ (g : List CyNode) (i : ℕ) (pos : Pos) {ids : List String},
      (∀ n ∈ g, n.data.id ∈ ids) → suppIn pos ids →
      suppIn (seedGroup gx gy r len g i pos) ids := by
  intro g
  induction g with
  | nil => intro i pos ids _ hp; exact hp
  | cons n g ih =>
      intro i pos ids hg hp
      exact ih _ _ (fun m hm => hg m (List.mem_cons_of_mem _ hm))
        (suppIn_setPos hp (hg n (List.mem_cons_self _ _)))

theorem seedGroup_ne_none (gx gy r : ℝ) (len : ℕ) :
    ∀ (g : List CyNode) (i : ℕ) (pos : Pos) (s : String),
      pos s ≠ none → seedGroup gx gy r len g i pos s ≠ none := by
  intro g
  induction g with
  | nil => intro i pos s hs; exact hs
  | cons n g ih => intro i pos s hs; exact ih _ _ _ (setPos_ne_none _ _ hs)

theorem seedGroup_covers (gx gy r : ℝ) (len : ℕ) :
    ∀ (g : List CyNode) (i : ℕ) (pos : Pos) (n : CyNode), n ∈ g →
      seedGroup gx gy r len g i pos n.data.id ≠ none := by
  intro g
  induction g with
  | nil => intro i pos n hn; exact absurd hn (List.not_mem_nil n)
  | cons m g ih =>
      intro i pos n hn
      rcases List.mem_cons.mp hn with rfl | hn'
      · exact seedGroup_ne_none gx gy r len g _ _ _ (by simp [setPos_apply])
      · exact ih _ _ n hn'

theorem mem_groupOf_self {nodes : List CyNode} {n : CyNode} (hn : n ∈ nodes) :
    n ∈ groupOf nodes (effType n) := by
  unfold groupOf
  rw [List.mem_filter]
  exact ⟨hn, by simp⟩

theorem groupOf_mem_nodes {nodes : List CyNode} {t : String} {n : CyNode}
    (hn : n ∈ groupOf nodes t) : n ∈ nodes := List.mem_of_mem_filter hn

theorem typesOf_step_mem (x : String) :
    ∀ (l : List CyNode) (acc : List String), x ∈ acc →
      x ∈ l.foldl (fun ts n => if effType n ∈ ts then ts else ts ++ [effType n]) acc := by
  intro l
  induction l with
  | nil => intro acc h; exact h
  | cons n l ih =>
      intro acc h
      apply ih
      show x ∈ (if effType n ∈ acc then acc else acc ++ [effType n])
      split
      · exact h
      · exact List.mem_append_left _ h

theorem mem_typesOf_aux :
    ∀ (l : List CyNode) (acc : List String) (n : CyNode), n ∈ l →
      effType n ∈ l.foldl (fun ts n => if effType n ∈ ts then ts else ts ++ [effType n]) acc := by
  intro l
  induction l with
  | nil => intro acc n hn; exact absurd hn (List.not_mem_nil n)
  | cons m l ih =>
      intro acc n hn
      rcases List.mem_cons.mp hn with rfl | hn'
      · rw [List.foldl_cons]
        apply typesOf_step_mem
        show effType n ∈ (if effType n ∈ acc then acc else acc ++ [effType n])
        split
        · assumption
        · exact List.mem_append_right _ (List.mem_singleton.mpr rfl)
      · exact ih _ n hn'

theorem mem_typesOf {nodes : List CyNode} {n : CyNode} (hn : n ∈ nodes) :
    effType n ∈ typesOf nodes := by
  unfold typesOf
  exact mem_typesOf_aux nodes [] n hn

theorem suppIn_seedType {nodes : List CyNode} (w h : ℝ) (types : List String)
    (t : String) {pos : Pos} (hp : suppIn pos (nodeIds nodes)) :
    suppIn (seedType nodes w h types pos t) (nodeIds nodes) := by
  unfold seedType
  apply suppIn_seedGroup
  · intro m hm
    exact List.mem_map_of_mem _ (groupOf_mem_nodes hm)
  · exact hp

theorem seedType_ne_none {nodes : List CyNode} (w h : ℝ) (types : List String)
    (t : String) {pos : Pos} {s : String} (hs : pos s ≠ none) :
    seedType nodes w h types pos t s ≠ none := by
  unfold seedType
  exact seedGroup_ne_none _ _ _ _ _ _ _ _ hs

theorem suppIn_seedPositions (nodes : List CyNode) (w h : ℝ) :
    suppIn (seedPositions nodes w h) (nodeIds nodes) := by
  unfold seedPositions
  exact foldl_preserve (fun pos => suppIn pos (nodeIds nodes)) _
    (fun (p : Pos) (t : String) hp => suppIn_seedType w h _ t hp) _ _
    (fun k hk => absurd rfl hk)

theorem seedPositions_covers (nodes : List CyNode) (w h : ℝ) :
    ∀ n ∈ nodes, seedPositions nodes w h n.data.id ≠ none := by
  intro n hn
  unfold seedPositions
  apply foldl_establish (fun (p : Pos) => p n.data.id ≠ none) _
    (fun (p : Pos) (t : String) hp => seedType_ne_none w h _ t hp) _ (effType n) (mem_typesOf hn)
  intro pos
  unfold seedType
  exact seedGroup_covers _ _ _ _ _ _ _ _ (mem_groupOf_self hn)

/- ---------- Iteration-phase lemmas ---------- -/

theorem suppIn_iterStep {nodes : List CyNode} {edges : List CyEdge} {w h : ℝ}
    {pos : Pos} {ids : List String} (hp : suppIn pos ids) :
    suppIn (iterStep nodes edges w h pos) ids := by
  unfold iterStep
  apply foldl_preserve (fun pos => suppIn pos ids) _
    (fun pos n hp' => suppIn_clampNode w h n hp')
  apply foldl_preserve (fun pos => suppIn pos ids) _
    (fun pos e hp' => suppIn_attractEdge e hp')
  apply foldl_preserve (fun pos => suppIn pos ids) _
    (fun pos ij hp' => suppIn_repulsePair nodes ij hp')
  exact hp

theorem iterStep_ne_none {nodes : List CyNode} {edges : List CyEdge} {w h : ℝ}
    {pos : Pos} {s : String} (hs : pos s ≠ none) :
    iterStep nodes edges w h pos s ≠ none := by
  unfold iterStep
  apply foldl_preserve (fun (p : Pos) => p s ≠ none) _
    (fun p n hp' => clampNode_ne_none w h n hp')
  apply foldl_preserve (fun (p : Pos) => p s ≠ none) _
    (fun p e hp' => attractEdge_ne_none e hp')
  apply foldl_preserve (fun (p : Pos) => p s ≠ none) _
    (fun p ij hp' => repulsePair_ne_none nodes ij hp')
  exact hs

theorem suppIn_layoutNodes (nodes : List CyNode) (edges : List CyEdge) (w h : ℝ) :
    suppIn (layoutNodes nodes edges w h) (nodeIds nodes) := by
  unfold layoutNodes
  exact iterate_preserve (fun pos => suppIn pos (nodeIds nodes)) _
    (fun pos hp => suppIn_iterStep hp) 60 _ (suppIn_seedPositions nodes w h)

theorem layoutNodes_covers (nodes : List CyNode) (edges : List CyEdge) (w h : ℝ) :
    ∀ n ∈ nodes, layoutNodes nodes edges w h n.data.id ≠ none := by
  intro n hn
  unfold layoutNodes
  exact iterate_preserve (fun (p : Pos) => p n.data.id ≠ none) _
    (fun p hp => iterStep_ne_none hp) 60 _ (seedPositions_covers nodes w h n hn)

/- ---------- Clamping bounds ---------- -/

theorem clampNode_none {w h : ℝ} {pos : Pos} {n : CyNode}
    (hp : pos n.data.id = none) : clampNode w h pos n = pos := by
  unfold clampNode
  rw [hp]

theorem clampNode_some {w h : ℝ} {pos : Pos} {n : CyNode} {p : Pt}
    (hp : pos n.data.id = some p) :
    clampNode w h pos n =
      setPos pos n.data.id ⟨max 30 (min (w - 30) p.x), max 30 (min (h - 30) p.y)⟩ := by
  unfold clampNode
  rw [hp]

theorem nodeIds_cons (n : CyNode) (l : List CyNode) :
    nodeIds (n :: l) = n.data.id :: nodeIds l := rfl

theorem clampFold_bounds {w h : ℝ} (hw : 60 ≤ w) (hh : 60 ≤ h) :
    ∀ (l : List CyNode) (pos : Pos) (k : String) (q : Pt),
      (l.foldl (clampNode w h) pos) k = some q →
      (30 ≤ q.x ∧ q.x ≤ w - 30 ∧ 30 ≤ q.y ∧ q.y ≤ h - 30) ∨
        (pos k = some q ∧ k ∉ nodeIds l) := by
  intro l
  induction l with
  | nil =>
      intro pos k q hk
      exact Or.inr ⟨hk, by simp [nodeIds]⟩
  | cons n l ih =>
      intro pos k q hk
      rw [List.foldl_cons] at hk
      rcases ih _ _ _ hk with hb | ⟨hq, hk'⟩
      · exact Or.inl hb
      · cases hp : pos n.data.id with
        | none =>
            rw [clampNode_none hp] at hq
            refine Or.inr ⟨hq, ?_⟩
            rw [nodeIds_cons]
            intro hmem
            rcases List.mem_cons.mp hmem with h1 | hmem'
            · rw [h1, hp] at hq; exact Option.noConfusion hq
            · exact hk' hmem'
        | some p =>
            rw [clampNode_some hp] at hq
            by_cases hkn : k = n.data.id
            · rw [setPos_apply, if_pos hkn] at hq
              obtain rfl : (⟨max 30 (min (w - 30) p.x), max 30 (min (h - 30) p.y)⟩ : Pt) = q :=
                Option.some.inj hq
              refine Or.inl ⟨le_max_left _ _, ?_, le_max_left _ _, ?_⟩
              · exact max_le (by linarith) (min_le_left _ _)
              · exact max_le (by linarith) (min_le_left _ _)
            · rw [setPos_apply, if_neg hkn] at hq
              refine Or.inr ⟨hq, ?_⟩
              rw [nodeIds_cons]
              intro hmem
              rcases List.mem_cons.mp hmem with h1 | hmem'
              · exact hkn h1
              · exact hk' hmem'

/-- Containment core: every entry of the final position map is inside the
clamping box (for a canvas at least 60 wide and 60 high). -/
theorem layoutNodes_inBounds {nodes : List CyNode} {edges : List CyEdge} {w h : ℝ}
    (hw : 60 ≤ w) (hh : 60 ≤ h) :
    ∀ k q, layoutNodes nodes edges w h k = some q →
      30 ≤ q.x ∧ q.x ≤ w - 30 ∧ 30 ≤ q.y ∧ q.y ≤ h - 30 := by
  intro k q hk
  unfold layoutNodes at hk
  rw [show (60 : ℕ) = 59 + 1 from rfl, Function.iterate_succ_apply'] at hk
  set pre := (iterStep nodes edges w h)^[59] (seedPositions nodes w h) with hpre
  rw [show iterStep nodes edges w h pre =
      nodes.foldl (clampNode w h)
        (edges.foldl attractEdge ((pairIdx nodes.length).foldl (repulsePair nodes) pre))
    from rfl] at hk
  have hsupp :
      suppIn (edges.foldl attractEdge ((pairIdx nodes.length).foldl (repulsePair nodes) pre))
        (nodeIds nodes) := by
    apply foldl_preserve (fun (p : Pos) => suppIn p (nodeIds nodes)) _
      (fun p e hp' => suppIn_attractEdge e hp')
    apply foldl_preserve (fun (p : Pos) => suppIn p (nodeIds nodes)) _
      (fun p ij hp' => suppIn_repulsePair nodes ij hp')
    rw [hpre]
    exact iterate_preserve (fun (p : Pos) => suppIn p (nodeIds nodes)) _
      (fun p hp => suppIn_iterStep hp) 59 _ (suppIn_seedPositions nodes w h)
  rcases clampFold_bounds hw hh nodes _ k q hk with hb | ⟨hq, hk'⟩
  · exact hb
  · refine absurd (hsupp k ?_) hk'
    rw [hq]
    exact fun c => Option.noConfusion c

/- ---------- Dangling-edge lemmas ---------- -/

theorem attractEdge_skip {pos : Pos} {e : CyEdge}
    (h : pos e.data.source = none ∨ pos e.data.target = none) :
    attractEdge pos e = pos := by
  unfold attractEdge
  cases hs : pos e.data.source with
  | none => rfl
  | some a =>
      cases ht : pos e.data.target with
      | none => rfl
      | some b =>
          exfalso
          rcases h with h | h
          · rw [hs] at h; exact Option.noConfusion h
          · rw [ht] at h; exact Option.noConfusion h

theorem attrFold_congr {ids : List String} {e : CyEdge}
    (hd : e.data.source ∉ ids ∨ e.data.target ∉ ids) (l₁ l₂ : List CyEdge)
    (pos : Pos) (hp : suppIn pos ids) :
    (l₁ ++ e :: l₂).foldl attractEdge pos = (l₁ ++ l₂).foldl attractEdge pos := by
  rw [List.foldl_append, List.foldl_append, List.foldl_cons]
  have hp1 : suppIn (l₁.foldl attractEdge pos) ids :=
    foldl_preserve (fun (p : Pos) => suppIn p ids) _
      (fun p e' hp' => suppIn_attractEdge e' hp') l₁ pos hp
  have hskip : attractEdge (l₁.foldl attractEdge pos) e = l₁.foldl attractEdge pos := by
    apply attractEdge_skip
    rcases hd with h | h
    · left
      by_contra hne
      exact h (hp1 _ hne)
    · right
      by_contra hne
      exact h (hp1 _ hne)
  rw [hskip]

theorem iterStep_congr {nodes : List CyNode} {e : CyEdge} {w h : ℝ}
    (hd : e.data.source ∉ nodeIds nodes ∨ e.data.target ∉ nodeIds nodes)
    (l₁ l₂ : List CyEdge) (pos : Pos) (hp : suppIn pos (nodeIds nodes)) :
    iterStep nodes (l₁ ++ e :: l₂) w h pos = iterStep nodes (l₁ ++ l₂) w h pos := by
  unfold iterStep
  rw [attrFold_congr hd l₁ l₂ _
    (foldl_preserve (fun (p : Pos) => suppIn p (nodeIds nodes)) _
      (fun p ij hp' => suppIn_repulsePair nodes ij hp') _ _ hp)]

theorem layoutNodes_dangling_eq {nodes : List CyNode} {e : CyEdge} {w h : ℝ}
    (hd : e.data.source ∉ nodeIds nodes ∨ e.data.target ∉ nodeIds nodes)
    (l₁ l₂ : List CyEdge) :
    layoutNodes nodes (l₁ ++ e :: l₂) w h = layoutNodes nodes (l₁ ++ l₂) w h := by
  unfold layoutNodes
  exact iterate_congr (fun (p : Pos) => suppIn p (nodeIds nodes)) _ _
    (fun p hp => iterStep_congr hd l₁ l₂ p hp)
    (fun p hp => suppIn_iterStep hp) 60 _ (suppIn_seedPositions nodes w h)

/- ---------- Concrete demo inputs ---------- -/

/-- A minimal node of a given id and type, as produced by the adapter. -/
def demoNode (id t : String) : CyNode :=
  { data := { id := id, label := id, type := t, risk_level := none, extra := [] } }

/-- A single Taxpayer node. -/
def demoNodeA : CyNode := demoNode "A" "Taxpayer"

/-- An edge whose target id does not belong to any node of `[demoNodeA]`. -/
def danglingEdge : CyEdge :=
  { data := { id := "e1", source := "A", target := "ZZZ", rel := "SELLS", risk_level := none } }

/- ---------- C1 ---------- -/

/-- C1: the layout function is deterministic — for a fixed node list, edge
list, width and height, any two invocations of `layoutNodes` return identical
position maps (same key set and same coordinates per key). -/
theorem layoutNodes_deterministic (nodes : List CyNode) (edges : List CyEdge) (w h : ℝ)
    (p₁ p₂ : Pos) (h₁ : p₁ = layoutNodes nodes edges w h)
    (h₂ : p₂ = layoutNodes nodes edges w h) :
    (∀ k, (p₁ k).isSome = (p₂ k).isSome) ∧ ∀ k, p₁ k = p₂ k := by
  subst h₁
  subst h₂
  exact ⟨fun _ => rfl, fun _ => rfl⟩

/-- Witness for C1 at a concrete input. -/
theorem layoutNodes_deterministic_witness :
    layoutNodes [demoNodeA] [] 100 100 "A" = layoutNodes [demoNodeA] [] 100 100 "A" :=
  (layoutNodes_deterministic [demoNodeA] [] 100 100 _ _ rfl rfl).2 "A"

/- ---------- C2 ---------- -/

/-- C2: containment — for a non-empty node list and canvas with
`60 ≤ width` and `60 ≤ height`, every node receives a position and every
position `{x, y}` in the map returned by `layoutNodes` satisfies
`30 ≤ x ≤ width - 30` and `30 ≤ y ≤ height - 30` (the coordinates are clamped
to that box after each of the 60 iterations). -/
theorem layoutNodes_containment (nodes : List CyNode) (edges : List CyEdge) (w h : ℝ)
    (_hne : nodes ≠ []) (hw : 60 ≤ w) (hh : 60 ≤ h) :
    (∀ n ∈ nodes, layoutNodes nodes edges w h n.data.id ≠ none) ∧
      ∀ k q, layoutNodes nodes edges w h k = some q →
        30 ≤ q.x ∧ q.x ≤ w - 30 ∧ 30 ≤ q.y ∧ q.y ≤ h - 30 :=
  ⟨layoutNodes_covers nodes edges w h, layoutNodes_inBounds hw hh⟩

/-- Witness for C2 at a concrete input. -/
theorem layoutNodes_containment_witness :
    layoutNodes [demoNodeA] [] 100 100 demoNodeA.data.id ≠ none :=
  (layoutNodes_containment [demoNodeA] [] 100 100 (by simp) (by norm_num)
    (by norm_num)).1 demoNodeA (List.mem_singleton.mpr rfl)

/- ---------- C3 ---------- -/

/-- C3: dangling-edge tolerance — an edge whose source or target id is not
the id of any input node contributes no attraction force (the layout equals
the layout without that edge), every node still receives a position, and the
renderer draws no connection for that edge. -/
theorem layoutNodes_dangling_tolerant (nodes : List CyNode) (l₁ l₂ : List CyEdge)
    (e : CyEdge) (w h : ℝ)
    (hd : e.data.source ∉ nodeIds nodes ∨ e.data.target ∉ nodeIds nodes) :
    layoutNodes nodes (l₁ ++ e :: l₂) w h = layoutNodes nodes (l₁ ++ l₂) w h
    ∧ (∀ n ∈ nodes, layoutNodes nodes (l₁ ++ e :: l₂) w h n.data.id ≠ none)
    ∧ ¬ edgeRendered (layoutNodes nodes (l₁ ++ e :: l₂) w h) e := by
  refine ⟨layoutNodes_dangling_eq hd l₁ l₂, layoutNodes_covers nodes _ w h, ?_⟩
  rintro ⟨hs, ht⟩
  have hsupp := suppIn_layoutNodes nodes (l₁ ++ e :: l₂) w h
  rcases hd with h | h
  · exact h (hsupp _ hs)
  · exact h (hsupp _ ht)

/-- Witness for C3 at a concrete input. -/
theorem layoutNodes_dangling_tolerant_witness :
    ¬ edgeRendered (layoutNodes [demoNodeA] ([] ++ danglingEdge :: []) 100 100) danglingEdge :=
  (layoutNodes_dangling_tolerant [demoNodeA] [] [] danglingEdge 100 100
    (Or.inr (by decide))).2.2

/- ---------- Single-type seeding and the empty graph (C6) ---------- -/

theorem typesOf_step_all {t : String} :
    ∀ (l : List CyNode), (∀ n ∈ l, effType n = t) →
      l.foldl (fun ts n => if effType n ∈ ts then ts else ts ++ [effType n]) [t] = [t] := by
  intro l
  induction l with
  | nil => intro _; rfl
  | cons m l ih =>
      intro h
      rw [List.foldl_cons]
      have hm := h m (List.mem_cons_self _ _)
      have hstep : (if effType m ∈ [t] then [t] else [t] ++ [effType m]) = [t] := by
        simp [hm]
      rw [hstep]
      exact ih (fun n hn => h n (List.mem_cons_of_mem _ hn))

theorem typesOf_single {nodes : List CyNode} {t : String} (hne : nodes ≠ [])
    (ht : ∀ n ∈ nodes, effType n = t) : typesOf nodes = [t] := by
  cases nodes with
  | nil => exact absurd rfl hne
  | cons m l =>
      unfold typesOf
      rw [List.foldl_cons]
      have hm := ht m (List.mem_cons_self _ _)
      have hstep : (if effType m ∈ ([] : List String) then [] else [] ++ [effType m])
          = [t] := by simp [hm]
      rw [hstep]
      exact typesOf_step_all l (fun n hn => ht n (List.mem_cons_of_mem _ hn))

theorem groupOf_all {nodes : List CyNode} {t : String}
    (ht : ∀ n ∈ nodes, effType n = t) : groupOf nodes t = nodes := by
  unfold groupOf
  apply List.filter_eq_self.mpr
  intro n hn
  simp [ht n hn]

theorem dist_on_circle {gx gy r : ℝ} (hr : 0 ≤ r) (a : ℝ) :
    ptDist ⟨gx + r * Real.cos a, gy + r * Real.sin a⟩ ⟨gx, gy⟩ = r := by
  unfold ptDist
  have hq : (gx + r * Real.cos a - gx) * (gx + r * Real.cos a - gx) +
      (gy + r * Real.sin a - gy) * (gy + r * Real.sin a - gy) = r ^ 2 := by
    have hcs := Real.sin_sq_add_cos_sq a
    linear_combination (r ^ 2) * hcs
  dsimp only
  rw [hq, Real.sqrt_sq hr]

theorem seedGroup_circle {gx gy r : ℝ} (hr : 0 ≤ r) (len : ℕ) :
    ∀ (g : List CyNode) (i : ℕ) (pos : Pos),
      (∀ k p, pos k = some p → ptDist p ⟨gx, gy⟩ = r) →
      ∀ k p, seedGroup gx gy r len g i pos k = some p → ptDist p ⟨gx, gy⟩ = r := by
  intro g
  induction g with
  | nil => intro i pos hp; exact hp
  | cons n g ih =>
      intro i pos hp
      apply ih
      intro k p hk
      rw [setPos_apply] at hk
      by_cases hkn : k = n.data.id
      · rw [if_pos hkn] at hk
        obtain rfl : (⟨gx + r * Real.cos (angleOf i len), gy + r * Real.sin (angleOf i len)⟩ :
            Pt) = p := Option.some.inj hk
        exact dist_on_circle hr _
      · rw [if_neg hkn] at hk
        exact hp k p hk

theorem layoutNodes_empty (w h : ℝ) : layoutNodes [] [] w h = (fun _ => none) := by
  unfold layoutNodes
  have hseed : seedPositions [] w h = (fun _ => none) := rfl
  have hfix : iterStep [] [] w h (fun _ => none) = (fun _ => none) := rfl
  rw [hseed]
  exact Function.iterate_fixed hfix 60

/- ---------- C6 ---------- -/

/-- C6: degenerate-input totality — `layoutNodes` on the empty node and edge
lists returns the empty map; the angle-step denominators are guarded at
minimum 1; and for a non-empty node list all of one (effective) type, every
seed position lies on one circle of radius `0.12 * min(width, height)` around
a single anchor. -/
theorem layoutNodes_degenerate (w h : ℝ) (nodes : List CyNode) (t : String)
    (hw : 0 ≤ w) (hh : 0 ≤ h) (hne : nodes ≠ []) (ht : ∀ n ∈ nodes, effType n = t) :
    layoutNodes [] [] w h = (fun _ => none)
    ∧ (∀ len : ℕ, 1 ≤ guardMax1 len)
    ∧ ∃ c : Pt, ∀ k p, seedPositions nodes w h k = some p →
        ptDist p c = min w h * 0.12 := by
  refine ⟨layoutNodes_empty w h, fun len => le_max_right _ _, ?_⟩
  have htypes := typesOf_single hne ht
  have hr : (0 : ℝ) ≤ min w h * 0.12 := mul_nonneg (le_min hw hh) (by norm_num)
  have hsp : seedPositions nodes w h = seedType nodes w h [t] (fun _ => none) t := by
    unfold seedPositions
    rw [htypes]
    rfl
  refine ⟨⟨w / 2 + min w h * 0.3 * Real.cos (angleOf (List.indexOf t [t]) [t].length),
    h / 2 + min w h * 0.3 * Real.sin (angleOf (List.indexOf t [t]) [t].length)⟩, ?_⟩
  intro k p hk
  rw [hsp] at hk
  unfold seedType at hk
  exact seedGroup_circle hr _ _ _ _ (fun k p hc => Option.noConfusion hc) k p hk

/-- Witness for C6 at a concrete input. -/
theorem layoutNodes_degenerate_witness :
    layoutNodes [] [] (100 : ℝ) 100 = (fun _ => none) :=
  (layoutNodes_degenerate 100 100 [demoNodeA] "Taxpayer" (by norm_num) (by norm_num)
    (by simp) (by decide)).1

/- ---------- C9 ---------- -/

/-- A second Taxpayer node, used for a two-node single-type input. -/
def demoNodeB : CyNode := demoNode "B" "Taxpayer"

/-- Two nodes of one type, for a 1 x 1 canvas run. -/
def twoNodes : List CyNode := [demoNodeA, demoNodeB]

/-- C9 counterexample: on the 1 x 1 canvas, the two seeded positions of
`twoNodes` are `(0.92, 0.5)` and `(0.68, 0.5)`, and the distance the
repulsion computation uses for this pair is `0.24`, which is not at least 1:
the `|| 1` fallback floors only an exact zero, not distances in `(0, 1)`. -/
theorem distUsed_floor_counterexample :
    seedPositions twoNodes 1 1 "A" = some ⟨0.92, 0.5⟩
    ∧ seedPositions twoNodes 1 1 "B" = some ⟨0.68, 0.5⟩
    ∧ distUsed ⟨0.92, 0.5⟩ ⟨0.68, 0.5⟩ = 0.24
    ∧ ¬ (1 ≤ distUsed ⟨0.92, 0.5⟩ ⟨0.68, 0.5⟩) := by
  have hang0 : ∀ len : ℕ, angleOf 0 len = 0 := by
    intro len
    unfold angleOf
    norm_num
  have hang12 : angleOf 1 2 = Real.pi := by
    unfold angleOf guardMax1
    rw [show max ((2 : ℕ) : ℝ) 1 = 2 by norm_num]
    push_cast
    ring
  have hdist : distUsed ⟨0.92, 0.5⟩ ⟨0.68, 0.5⟩ = 0.24 := by
    unfold distUsed
    have hsq : ((0.92 : ℝ) - 0.68) * ((0.92 : ℝ) - 0.68) +
        ((0.5 : ℝ) - 0.5) * ((0.5 : ℝ) - 0.5) = (0.24 : ℝ) ^ 2 := by norm_num
    dsimp only
    rw [hsq, Real.sqrt_sq (by norm_num : (0 : ℝ) ≤ 0.24)]
    norm_num
  have hA : seedPositions twoNodes 1 1 "A" =
      some ⟨1 / 2 + min (1 : ℝ) 1 * 0.3 * Real.cos (angleOf 0 1) +
          min (1 : ℝ) 1 * 0.12 * Real.cos (angleOf 0 2),
        1 / 2 + min (1 : ℝ) 1 * 0.3 * Real.sin (angleOf 0 1) +
          min (1 : ℝ) 1 * 0.12 * Real.sin (angleOf 0 2)⟩ := rfl
  have hB : seedPositions twoNodes 1 1 "B" =
      some ⟨1 / 2 + min (1 : ℝ) 1 * 0.3 * Real.cos (angleOf 0 1) +
          min (1 : ℝ) 1 * 0.12 * Real.cos (angleOf 1 2),
        1 / 2 + min (1 : ℝ) 1 * 0.3 * Real.sin (angleOf 0 1) +
          min (1 : ℝ) 1 * 0.12 * Real.sin (angleOf 1 2)⟩ := rfl
  refine ⟨?_, ?_, hdist, ?_⟩
  · rw [hA, hang0 1, hang0 2]
    norm_num [Real.cos_zero, Real.sin_zero]
  · rw [hB, hang0 1, hang12]
    norm_num [Real.cos_zero, Real.sin_zero, Real.cos_pi, Real.sin_pi]
  · rw [hdist]
    norm_num

/-- C9 amended: the distance used by every repulsion computation is strictly
positive — exactly coincident points get distance 1 — so no division by zero
occurs; distances strictly between 0 and 1, however, are used as-is. -/
theorem distUsed_positive (a b : Pt) :
    0 < distUsed a b ∧ (a = b → distUsed a b = 1) := by
  constructor
  · unfold distUsed
    dsimp only
    split_ifs with hs
    · norm_num
    · exact lt_of_le_of_ne (Real.sqrt_nonneg _) (Ne.symm hs)
  · rintro rfl
    simp [distUsed, sub_self]

/-- Witness for the C9 amended theorem at a concrete input. -/
theorem distUsed_positive_witness :
    0 < distUsed ⟨0, 0⟩ ⟨0, 0⟩ ∧ distUsed ⟨0, 0⟩ ⟨0, 0⟩ = 1 :=
  ⟨(distUsed_positive ⟨0, 0⟩ ⟨0, 0⟩).1, (distUsed_positive ⟨0, 0⟩ ⟨0, 0⟩).2 rfl⟩

/- ---------- C5 ---------- -/

/-- A malformed payload: both arrays missing. -/
def badRaw : RawGraph := { nodes := none, edges := none, node_count := 5, edge_count := 2 }

/-- C5 counterexample: on a payload with a missing `nodes`/`edges` array,
`tocy` raises a TypeError; it does not return an empty graph. -/
theorem tocy_missing_arrays_throw :
    tocy badRaw = Except.error "TypeError"
    ∧ tocy badRaw ≠
        Except.ok { nodes := [], edges := [], node_count := 5, edge_count := 2 } := by
  refine ⟨rfl, ?_⟩
  intro hc
  rw [show tocy badRaw = Except.error "TypeError" from rfl] at hc
  exact Except.noConfusion hc

/-- C5 amended: when the `nodes` or `edges` array is missing, `tocy` raises a
TypeError (it does not absorb the malformed payload); when both arrays are
present it returns the mapped graph without throwing, so present-but-empty
arrays yield an empty graph. -/
theorem tocy_malformed_behavior (raw : RawGraph) :
    ((raw.nodes = none ∨ raw.edges = none) → tocy raw = Except.error "TypeError")
    ∧ (∀ ns es, raw.nodes = some ns → raw.edges = some es →
        tocy raw = Except.ok
          { nodes := ns.map rawNodeToCy, edges := es.map rawEdgeToCy,
            node_count := raw.node_count, edge_count := raw.edge_count }) := by
  constructor
  · intro hm
    unfold tocy
    cases hn : raw.nodes with
    | none => cases he : raw.edges <;> rfl
    | some ns =>
        cases he : raw.edges with
        | none => rfl
        | some es =>
            exfalso
            rcases hm with hm | hm
            · rw [hn] at hm; exact Option.noConfusion hm
            · rw [he] at hm; exact Option.noConfusion hm
  · intro ns es hn he
    unfold tocy
    rw [hn, he]

/-- A well-formed payload with empty arrays. -/
def emptyOkRaw : RawGraph :=
  { nodes := some [], edges := some [], node_count := 0, edge_count := 0 }

/-- Witness for the C5 amended theorem at concrete inputs. -/
theorem tocy_malformed_behavior_witness :
    tocy badRaw = Except.error "TypeError"
    ∧ tocy emptyOkRaw = Except.ok
        { nodes := [], edges := [], node_count := 0, edge_count := 0 } := by
  constructor
  · exact (tocy_malformed_behavior badRaw).1 (Or.inl rfl)
  · exact (tocy_malformed_behavior emptyOkRaw).2 [] [] rfl rfl

/- ---------- C10 ---------- -/

/-- C10: the adapter copies `node_count`/`edge_count` verbatim from the raw
payload (even when they differ from the mapped array lengths), and the
no-results decision of `handleVisualize` tests this copied `node_count` field,
not the node-array length. -/
theorem tocy_counts_verbatim (raw : RawGraph) (ns : List RawNode) (es : List RawEdge)
    (g : CyGraph) (st : PageState) (tgt : Option String)
    (hn : raw.nodes = some ns) (he : raw.edges = some es)
    (hg : tocy raw = Except.ok g)
    (hkey : jsToUpper (jsTrim (tgt.getD st.gstin)) ≠ "") :
    g.node_count = raw.node_count ∧ g.edge_count = raw.edge_count
    ∧ g.nodes.length = ns.length
    ∧ ((handleVisualize st tgt (Except.ok g)).graph = some g ↔ 0 < raw.node_count) := by
  have hmap := (tocy_malformed_behavior raw).2 ns es hn he
  rw [hg] at hmap
  obtain rfl := Except.ok.inj hmap
  refine ⟨rfl, rfl, by simp, ?_⟩
  unfold handleVisualize
  rw [if_neg hkey]
  dsimp only
  split_ifs with hc
  · simp [hc]
  · simp [hc]

/-- A raw payload whose `node_count` (7) differs from its node-array length
(0). -/
def rawMismatch : RawGraph :=
  { nodes := some [], edges := some [], node_count := 7, edge_count := 3 }

/-- The adapter image of `rawMismatch`. -/
def gMismatch : CyGraph := { nodes := [], edges := [], node_count := 7, edge_count := 3 }

/-- Witness for C10 at a concrete input. -/
theorem tocy_counts_verbatim_witness :
    gMismatch.node_count = rawMismatch.node_count
    ∧ gMismatch.edge_count = rawMismatch.edge_count
    ∧ gMismatch.nodes.length = ([] : List RawNode).length
    ∧ ((handleVisualize initState (some "A") (Except.ok gMismatch)).graph = some gMismatch ↔
        0 < rawMismatch.node_count) :=
  tocy_counts_verbatim rawMismatch [] [] gMismatch initState (some "A") rfl rfl rfl
    (by decide)

/- ---------- C4 ---------- -/

/-- A graph response the overview may be showing (`node_count = 1`). -/
def demoGraph1 : CyGraph := { nodes := [], edges := [], node_count := 1, edge_count := 0 }

/-- An empty subgraph response (`node_count = 0`). -/
def emptyResult : CyGraph := { nodes := [], edges := [], node_count := 0, edge_count := 0 }

/-- An overview-mode state currently displaying a graph. -/
def stOverview : PageState :=
  { gstin := "", depth := 1, loading := false, error := none, graph := some demoGraph1,
    mode := Mode.overview }

/-- C4 counterexample: on an empty result, `handleVisualize` does not leave
the displayed graph unchanged — it sets the graph to `null`. -/
theorem handleVisualize_clears_graph :
    stOverview.graph = some demoGraph1
    ∧ (handleVisualize stOverview (some "BADKEY") (Except.ok emptyResult)).graph = none
    ∧ (handleVisualize stOverview (some "BADKEY") (Except.ok emptyResult)).graph
        ≠ stOverview.graph := by
  refine ⟨rfl, by decide, by decide⟩

/-- C4 amended: when a subgraph search for a non-empty key returns a response
with `node_count = 0`, `handleVisualize` sets the error to exactly
`No results found for "G" at depth D`, does not switch the mode to subgraph
(the mode stays overview), and clears the displayed graph (sets it to null)
rather than leaving it unchanged. -/
theorem handleVisualize_empty_result (st : PageState) (tgt : Option String) (d : CyGraph)
    (hmode : st.mode = Mode.overview)
    (hkey : jsToUpper (jsTrim (tgt.getD st.gstin)) ≠ "")
    (hcount : d.node_count = 0) :
    (handleVisualize st tgt (Except.ok d)).error
      = some (noResultsMsg (jsToUpper (jsTrim (tgt.getD st.gstin))) st.depth)
    ∧ (handleVisualize st tgt (Except.ok d)).mode = Mode.overview
    ∧ (handleVisualize st tgt (Except.ok d)).graph = none := by
  have hc : ¬ (0 : Int) < d.node_count := by
    rw [hcount]
    exact lt_irrefl 0
  unfold handleVisualize
  rw [if_neg hkey]
  dsimp only
  rw [if_neg hc]
  exact ⟨rfl, hmode, rfl⟩

/-- Witness for the C4 amended theorem at a concrete input. -/
theorem handleVisualize_empty_result_witness :
    (handleVisualize stOverview (some "BADKEY") (Except.ok emptyResult)).error
      = some (noResultsMsg (jsToUpper (jsTrim ((some "BADKEY" : Option String).getD
          stOverview.gstin))) stOverview.depth)
    ∧ (handleVisualize stOverview (some "BADKEY") (Except.ok emptyResult)).mode
        = Mode.overview
    ∧ noResultsMsg "BADKEY" 1 = "No results found for \"BADKEY\" at depth 1" := by
  refine ⟨(handleVisualize_empty_result stOverview (some "BADKEY") emptyResult rfl
    (by decide) rfl).1,
    (handleVisualize_empty_result stOverview (some "BADKEY") emptyResult rfl
    (by decide) rfl).2.1, by decide⟩

/- ---------- C7 ---------- -/

/-- The state reached by a successful search for "A" from the initial state. -/
def stAfterSearch : PageState :=
  stepEv initState (Ev.visualize (some "A") (Except.ok demoGraph1))

/-- The state reached from `stAfterSearch` by returning to the overview. -/
def stBackToOverview : PageState :=
  stepEv stAfterSearch (Ev.overviewLoaded (Except.ok demoGraph1))

/-- C7 counterexample: a reachable state in which the mode is overview but the
search key (`gstin`) is non-empty — returning to overview does not clear the
focus key, so the claimed biconditional fails. -/
theorem focus_mode_invariant_fails :
    ReachableState stBackToOverview
    ∧ stBackToOverview.mode = Mode.overview
    ∧ stBackToOverview.gstin ≠ "" := by
  refine ⟨?_, by decide, by decide⟩
  exact ReachableState.next _ _ (ReachableState.next _ _ ReachableState.init)

/-- C7 amended: any transition that switches the mode from overview to
subgraph leaves the focus key non-empty; but completing `loadOverview` never
changes `gstin`, so the focus key is retained (not cleared) on return to
overview and the biconditional of the original claim does not hold in all
reachable states. -/
theorem subgraph_entry_nonempty_focus :
    (∀ (s : PageState) (e : Ev), s.mode = Mode.overview →
      (stepEv s e).mode = Mode.subgraph → (stepEv s e).gstin ≠ "")
    ∧ ∀ (s : PageState) (r : Except ApiErr CyGraph),
        (stepEv s (Ev.overviewLoaded r)).gstin = s.gstin := by
  constructor
  · intro s e hov hsub
    cases e with
    | overviewLoaded r =>
        cases r with
        | ok g => exact absurd hsub (by simp [stepEv])
        | error err => rw [show stepEv s (Ev.overviewLoaded (Except.error err))
            = { s with graph := none, loading := false } from rfl] at hsub ⊢
                       exact absurd (hov ▸ hsub) (by decide)
    | visualize tgt resp =>
        rw [show stepEv s (Ev.visualize tgt resp) = handleVisualize s tgt resp from rfl]
          at hsub ⊢
        unfold handleVisualize at hsub ⊢
        by_cases hkey : jsToUpper (jsTrim (tgt.getD s.gstin)) = ""
        · rw [if_pos hkey] at hsub
          exact absurd (hov ▸ hsub) (by decide)
        · rw [if_neg hkey] at hsub ⊢
          cases resp with
          | ok d =>
              dsimp only at hsub ⊢
              by_cases hc : (0 : Int) < d.node_count
              · rw [if_pos hc]
                exact hkey
              · rw [if_neg hc] at hsub
                exact absurd (hov ▸ hsub) (by decide)
          | error err =>
              dsimp only at hsub
              exact absurd (hov ▸ hsub) (by decide)
    | inputChange str => exact absurd hsub (hov ▸ (by simp [stepEv]))
    | depthSelect d => exact absurd hsub (hov ▸ (by simp [stepEv]))
    | depthRefetch resp =>
        have hcond : ¬ (s.mode = Mode.subgraph ∧ jsTrim s.gstin ≠ "") := by
          rintro ⟨hm, _⟩
          rw [hov] at hm
          exact Mode.noConfusion hm
        cases resp with
        | ok g =>
            rw [show stepEv s (Ev.depthRefetch (Except.ok g)) =
                (if s.mode = Mode.subgraph ∧ jsTrim s.gstin ≠ "" then
                  { s with graph := some g, loading := false } else s) from rfl,
              if_neg hcond] at hsub
            exact absurd (hov.symm.trans hsub) (by decide)
        | error err =>
            rw [show stepEv s (Ev.depthRefetch (Except.error err)) =
                (if s.mode = Mode.subgraph ∧ jsTrim s.gstin ≠ "" then
                  { s with graph := none, loading := false } else s) from rfl,
              if_neg hcond] at hsub
            exact absurd (hov.symm.trans hsub) (by decide)
  · intro s r
    cases r with
    | ok g => rfl
    | error err => rfl

/-- Witness for the C7 amended theorem at a concrete input. -/
theorem subgraph_entry_nonempty_focus_witness :
    initState.mode = Mode.overview
    ∧ stAfterSearch.mode = Mode.subgraph
    ∧ stAfterSearch.gstin ≠ "" :=
  ⟨rfl, by decide,
    subgraph_entry_nonempty_focus.1 initState
      (Ev.visualize (some "A") (Except.ok demoGraph1)) rfl (by decide)⟩

/- ---------- C8 ---------- -/

/-- C8 counterexample: the zoom step is additive, not multiplicative — from
zoom 1, `zoomIn` yields 1.2, whereas multiplying by the 0.2 step and clamping
to [0.2, 4] (the claimed transition) would yield 0.2. -/
theorem zoomIn_not_multiplicative :
    zoomIn 1 = 1.2 ∧ zoomInClaimed 1 = 0.2 ∧ zoomIn 1 ≠ zoomInClaimed 1 := by
  have h1 : zoomIn 1 = 1.2 := by
    unfold zoomIn
    norm_num
  have h2 : zoomInClaimed 1 = 0.2 := by
    unfold zoomInClaimed
    norm_num
  refine ⟨h1, h2, ?_⟩
  rw [h1, h2]
  norm_num

/-- C8 amended: `zoomIn` adds the fixed step 0.2 (capped above at 4) and
`zoomOut` subtracts it (floored below at 0.2); starting from zoom = 1, every
sequence of zoomIn, zoomOut and resetView operations keeps the zoom within
[0.2, 4]. -/
theorem zoom_sequence_bounded :
    ∀ ops : List ZoomOp, 0.2 ≤ runZoom 1 ops ∧ runZoom 1 ops ≤ 4 := by
  have key : ∀ (ops : List ZoomOp) (z : ℝ), 0.2 ≤ z → z ≤ 4 →
      0.2 ≤ ops.foldl applyZoom z ∧ ops.foldl applyZoom z ≤ 4 := by
    intro ops
    induction ops with
    | nil => intro z h1 h2; exact ⟨h1, h2⟩
    | cons op ops ih =>
        intro z h1 h2
        rw [List.foldl_cons]
        cases op with
        | zin => exact ih _ (le_min (by linarith) (by norm_num)) (min_le_right _ _)
        | zout => exact ih _ (le_max_right _ _) (max_le (by linarith) (by norm_num))
        | reset =>
            exact ih _ (by norm_num [applyZoom, resetView]) (by norm_num [applyZoom, resetView])
  intro ops
  exact key ops 1 (by norm_num) (by norm_num)
